import Mathlib

/-!
Verification of the connection-multiplexing listener (`network/listener.go`):
a shallow embedding of the sniffer byte-replay buffer, the sniffed connection
wrapper, the accept loop with its error policy, and the channel-fed secondary
listener facade, together with theorems about the spec's claims.
-/

namespace Network

/-- A byte of a network stream (Go `byte`). -/
abbrev Byte := Nat

/-- A Go `error` value: `none` is Go's nil error, `some k` identifies a
distinct non-nil error. -/
abbrev GoError := Option Nat

/-- The outcome of one `Read` call on an upstream `io.Reader`: the bytes it
produced together with the error value it returned alongside them. -/
structure Chunk where
  data : List Byte
  err : GoError
deriving Repr, DecidableEq

/-- An upstream `io.Reader` (the raw `net.Conn` underneath a sniffer), modelled
as the results of its successive `Read` calls; the result may depend on the
index of the call and on the size of the caller's slice `p`.  Per the
`io.Reader` contract a call with a slice of length `plen` yields at most
`plen` bytes, which the embedding enforces by truncation at the call site. -/
abbrev Source := Nat → Nat → Chunk

/-- State of `sniffer` (listener.go 187–194): the upstream source plus how many
reads it has already answered, the contents of the internal `bytes.Buffer`
together with its capacity (only whether the capacity is zero is ever branched
on, and `bytes.Buffer` guarantees capacity ≥ length, zero for the zero value),
the replay cursor `bufferRead`, the replay ceiling `bufferSize`, the `sniffing`
flag, and the last error recorded while sniffing. -/
structure Sniffer where
  source : Source
  srcIdx : Nat
  buffer : List Byte
  bufCap : Nat
  bufferRead : Nat
  bufferSize : Nat
  sniffing : Bool
  lastErr : GoError

/-- `sniffer.Read` (listener.go 197–214).  `plen` is `len(p)`; the result is
(bytes copied into `p`, returned error, new state).  `copy` into `p` takes at
most `plen` bytes of `buffer.Bytes()[bufferRead:bufferSize]`.
`bytes.Buffer.Write` is documented to always return a nil error, so the Go
code's write-error branch is dead and the write is modelled as succeeding;
a successful write appends to the contents and leaves capacity ≥ length. -/
def Sniffer.read (s : Sniffer) (plen : Nat) : List Byte × GoError × Sniffer :=
  if s.bufferSize > s.bufferRead then
    let bn := ((s.buffer.take s.bufferSize).drop s.bufferRead).take plen
    (bn, s.lastErr, { s with bufferRead := s.bufferRead + bn.length })
  else
    let s0 :=
      if s.sniffing = false ∧ s.bufCap ≠ 0 then
        { s with buffer := [], bufCap := 0 }
      else s
    let c := s0.source s0.srcIdx plen
    let data := c.data.take plen
    let s1 := { s0 with srcIdx := s0.srcIdx + 1 }
    if 0 < data.length ∧ s1.sniffing = true then
      (data, c.err,
        { s1 with
            lastErr := c.err,
            buffer := s1.buffer ++ data,
            bufCap := max s1.bufCap (s1.buffer.length + data.length) })
    else
      (data, c.err, s1)

/-- `sniffer.reset` (listener.go 217–221). -/
def Sniffer.reset (s : Sniffer) (snif : Bool) : Sniffer :=
  { s with sniffing := snif, bufferRead := 0, bufferSize := s.buffer.length }

/-- The sniffer `sniffer{source: c}` built by `newConn` (listener.go 166): every
other field takes its Go zero value. -/
def mkSniffer (src : Source) : Sniffer :=
  { source := src, srcIdx := 0, buffer := [], bufCap := 0,
    bufferRead := 0, bufferSize := 0, sniffing := false, lastErr := none }

/-- `network.Conn` (listener.go 157–160): a raw `net.Conn` (by id) wrapped with
a sniffer over that connection's byte stream. -/
structure Conn where
  raw : Nat
  buffer : Sniffer

/-- `newConn` (listener.go 163–168). -/
def newConn (c : Nat) (src : Source) : Conn :=
  { raw := c, buffer := mkSniffer src }

/-- `Conn.Read` (listener.go 171–173): routed through the sniffer. -/
def Conn.read (m : Conn) (plen : Nat) : List Byte × GoError × Conn :=
  let o := m.buffer.read plen
  (o.1, o.2.1, { m with buffer := o.2.2 })

/-- `Conn.startSniffing` (listener.go 175–178). -/
def Conn.startSniffing (m : Conn) : Conn :=
  { m with buffer := m.buffer.reset true }

/-- `Conn.doneSniffing` (listener.go 180–182). -/
def Conn.doneSniffing (m : Conn) : Conn :=
  { m with buffer := m.buffer.reset false }

/-- Run a sequence of `Read` calls (given by the lengths of the supplied
slices) against a sniffer, collecting each call's (bytes, error) outcome and
the final state. -/
def runReads : Sniffer → List Nat → List (List Byte × GoError) × Sniffer
  | s, [] => ([], s)
  | s, p :: ps =>
    let o := s.read p
    let r := runReads o.2.2 ps
    ((o.1, o.2.1) :: r.fst, r.snd)

/-- The outcomes of a sequence of reads served directly by the upstream source
starting at source call index `i`: each read returns the source's chunk
truncated to the requested length, with the source's own error. -/
def passRun (src : Source) : Nat → List Nat → List (List Byte × GoError)
  | _, [] => []
  | i, p :: ps => ((src i p).data.take p, (src i p).err) :: passRun src (i + 1) ps

/-- The replay phase of a read sequence over a buffer with ceiling `B`, cursor
`r` and recorded error `e`: the outcomes served from the buffer, paired with
the number of reads of the sequence consumed by the replay. -/
def replaySplit (buf : List Byte) (B : Nat) (e : GoError) :
    Nat → List Nat → List (List Byte × GoError) × Nat
  | _, [] => ([], 0)
  | r, p :: ps =>
    if r < B then
      let chunk := ((buf.take B).drop r).take p
      let rest := replaySplit buf B e (r + chunk.length) ps
      ((chunk, e) :: rest.fst, rest.snd + 1)
    else ([], 0)

/-! ### Errors reaching the listener's error policy -/

/-- Modelled from the spec: the type `ErrNotMatched` is constructed in
`Listener.serve` (listener.go 111) but its definition — in particular whether it
implements `net.Error` — is not under src.  Spec §7 routes the synthetic
"not matched" condition "through the same policy function as transport errors",
and §4.3 states that the per-connection task closes the bound listener exactly
when the policy rejects continuation; with `handleErr`'s temporary-error gate
this forces `ErrNotMatched` to implement `net.Error`. -/
def errNotMatchedIsNetError : Bool := true

/-- Modelled from the spec: `ErrNotMatched`'s `Temporary()` method is not under
src.  Spec §4.3 makes policy rejection alone decide whether the bound listener
is closed, which under `handleErr`'s gate forces `Temporary()` to return
true. -/
def errNotMatchedTemp : Bool := true

/-- The error values that reach `Listener.handleErr`: transport errors that
implement `net.Error` (with their `Temporary()` classification), errors that do
not implement `net.Error`, and the synthetic `ErrNotMatched{c}`. -/
inductive LErr
  | netErr (id : Nat) (temp : Bool)
  | plainErr (id : Nat)
  | notMatched (c : Nat)
deriving Repr, DecidableEq

/-- The `err.(net.Error)` type assertion of `handleErr` (listener.go 127). -/
def LErr.isNetError : LErr → Bool
  | .netErr _ _ => true
  | .plainErr _ => false
  | .notMatched _ => errNotMatchedIsNetError

/-- `Temporary()` of an error (consulted only after the `net.Error` assertion
succeeds). -/
def LErr.temp : LErr → Bool
  | .netErr _ t => t
  | .plainErr _ => false
  | .notMatched _ => errNotMatchedTemp

/-- `Listener.handleErr` (listener.go 122–132): ask the policy; on approval,
continue only for errors the transport classifies as temporary. -/
def handleErr (policy : LErr → Bool) (e : LErr) : Bool :=
  if policy e = false then false
  else if e.isNetError then e.temp
  else false

/-! ### The accept loop of `Listener.Serve` and the per-connection task -/

/-- One outcome of `m.root.Accept()` in the accept loop: a connection (by id)
or an error. -/
inductive AcceptResult
  | conn (c : Nat)
  | acceptErr (e : LErr)
deriving Repr, DecidableEq

/-- The accept loop of `Listener.Serve` (listener.go 93–104) over a finite
script of accept outcomes.  Each accepted connection is handed, unchanged, to a
per-connection task (second component, in order); an accept error either lets
the loop continue (when `handleErr` approves) or makes `Serve` return that
exact error (first component; `none` means the script ran out with the loop
still accepting). -/
def serveLoop (policy : LErr → Bool) : List AcceptResult → Option LErr × List Nat
  | [] => (none, [])
  | .conn c :: rest =>
    let r := serveLoop policy rest
    (r.fst, c :: r.snd)
  | .acceptErr e :: rest =>
    if handleErr policy e then serveLoop policy rest
    else (some e, [])

/-- The observable effects of the per-connection task `Listener.serve`
(listener.go 107–115): whether it closed the connection, the error it reported
to the policy, and whether it closed the owning bound listener. -/
structure TaskEffect where
  closedConn : Bool
  reported : LErr
  closedRoot : Bool
deriving Repr, DecidableEq

/-- `Listener.serve` (listener.go 107–115): close the connection, report
`ErrNotMatched{c}` through `handleErr`, and close the bound root listener when
`handleErr` rejects continuation. -/
def serveConn (policy : LErr → Bool) (c : Nat) : TaskEffect :=
  let e := LErr.notMatched c
  { closedConn := true, reported := e, closedRoot := !(handleErr policy e) }

/-! ### The secondary listener facade's `connections` channel -/

/-- The facade's buffered `connections` channel (listener.go 72, 143): the
queued connection ids in FIFO order and whether the channel has been closed.
The buffer capacity (`m.bufferSize`, default 1024) never matters here: no code
in the repository ever sends on this channel. -/
structure ConnChan where
  queue : List Nat
  closed : Bool
deriving Repr, DecidableEq

/-- The operations the repository can perform on a `connections` channel:
closing it and receiving from it (`muxListener.Accept`).  There is no send
operation anywhere in the code. -/
inductive ChanOp
  | closeCh
  | recv
deriving Repr, DecidableEq

/-- Go channel receive `c, ok := <-l.connections`: buffered values are
delivered (with ok = true) even after a close; an empty closed channel yields
the zero value with ok = false; on an empty open channel the receiver blocks
(`none`). -/
def ConnChan.recvCh (ch : ConnChan) : Option ((Option Nat × Bool) × ConnChan) :=
  match ch.queue with
  | c :: rest => some ((some c, true), { ch with queue := rest })
  | [] => if ch.closed then some ((none, false), ch) else none

/-- Apply one channel operation (a blocked receive leaves the state as is). -/
def ConnChan.stepOp (ch : ConnChan) : ChanOp → ConnChan
  | .closeCh => { ch with closed := true }
  | .recv =>
    match ch.recvCh with
    | some (_, ch2) => ch2
    | none => ch

/-- The channel as created by `ServeAsync` (listener.go 72): empty and open. -/
def newConnChan : ConnChan := { queue := [], closed := false }

/-- The channel state after any sequence of operations the repository can
perform on it. -/
def runChanOps (ops : List ChanOp) : ConnChan :=
  ops.foldl ConnChan.stepOp newConnChan

/-- The `errListenerClosed` string error type (listener.go 21–25). -/
structure ErrListenerClosedVal where
  msg : String
deriving Repr, DecidableEq

/-- `ErrListenerClosed` (listener.go 29). -/
def ErrListenerClosed : ErrListenerClosedVal := ⟨"mux: listener closed"⟩

/-- `errListenerClosed.Temporary` (listener.go 24). -/
def ErrListenerClosedVal.Temporary (_ : ErrListenerClosedVal) : Bool := false

/-- `errListenerClosed.Timeout` (listener.go 25). -/
def ErrListenerClosedVal.Timeout (_ : ErrListenerClosedVal) : Bool := false

/-- `muxListener.Accept` (listener.go 146–152): receive from the connections
channel; when the receive reports a closed channel, return `ErrListenerClosed`.
`none` means the call is still blocked on the receive. -/
def muxAccept (ch : ConnChan) :
    Option ((Option Nat × Option ErrListenerClosedVal) × ConnChan) :=
  match ch.recvCh with
  | none => none
  | some ((co, ok), ch2) =>
    if ok then some ((co, none), ch2)
    else some ((none, some ErrListenerClosed), ch2)

/-! ### Listener lifecycle steps touching facades (for the facade lifecycle
claim) -/

/-- A secondary listener facade as seen by the lifecycle claim: whether its
connection queue has been closed. -/
structure FacadeChan where
  qclosed : Bool
deriving Repr, DecidableEq

/-- The lifecycle state of one `Listener`: whether the bound root listener has
been closed, whether the `closing` channel has been closed, and the facades
created so far by `ServeAsync`. -/
structure MuxState where
  rootClosed : Bool
  closingClosed : Bool
  facades : List FacadeChan
deriving Repr, DecidableEq

/-- The `Listener` steps that touch its lifecycle state:
`serveAsync` (listener.go 69–75) creates a facade whose queue is open and
closes nothing; `serveShutdown` is the deferred shutdown path of `Serve`
(listener.go 86–91), which closes `m.closing` and waits for the in-flight
tasks, touching no facade queue; `closeListener` is `Listener.Close`
(listener.go 135–137), which closes only the bound root listener. -/
inductive MuxOp
  | serveAsync
  | serveShutdown
  | closeListener
deriving Repr, DecidableEq

/-- Apply one lifecycle step, exactly as the code does. -/
def MuxState.step (st : MuxState) : MuxOp → MuxState
  | .serveAsync => { st with facades := st.facades ++ [{ qclosed := false }] }
  | .serveShutdown => { st with closingClosed := true }
  | .closeListener => { st with rootClosed := true }

/-- A freshly constructed `Listener` (listener.go 45–51). -/
def newMuxState : MuxState :=
  { rootClosed := false, closingClosed := false, facades := [] }

/-- The lifecycle state after any sequence of steps. -/
def MuxState.run (ops : List MuxOp) : MuxState :=
  ops.foldl MuxState.step newMuxState

/-! ### `Listener.Accept` pass-through -/

/-- The bound OS listener `m.root`: the raw connections (by id) it will deliver
to successive `Accept` calls. -/
structure RootListener where
  pending : List Nat
deriving Repr, DecidableEq

/-- `net.Listener.Accept` on the bound root listener: the next raw connection,
if one is available. -/
def RootListener.acceptRoot : RootListener → Option Nat × RootListener
  | ⟨[]⟩ => (none, ⟨[]⟩)
  | ⟨c :: rest⟩ => (some c, ⟨rest⟩)

/-- `Listener.Accept` (listener.go 63–66): `return m.root.Accept()`. -/
def listenerAccept (root : RootListener) : Option Nat × RootListener :=
  root.acceptRoot

/-! ### Concrete fixtures used by counterexamples and witnesses -/

/-- A source whose first two reads carry one byte each with two distinct
errors, used to exercise error replay. -/
def cexSrc : Source := fun i _ =>
  if i = 0 then ⟨[1], some 7⟩ else if i = 1 then ⟨[2], some 8⟩ else ⟨[], some 9⟩

/-- A sniffer state with one stale buffered byte whose replay window has been
fully consumed but not yet discarded (reachable by sniffing one byte, stopping,
and reading it back), over a source that will deliver the byte 8 next. -/
def staleSniffer : Sniffer :=
  { source := fun _ _ => ⟨[8], none⟩, srcIdx := 0, buffer := [7], bufCap := 1,
    bufferRead := 1, bufferSize := 1, sniffing := false, lastErr := none }

/-- Like `staleSniffer` but over a source that will deliver the byte 5 next. -/
def staleSniffer2 : Sniffer :=
  { source := fun _ _ => ⟨[5], none⟩, srcIdx := 0, buffer := [7], bufCap := 1,
    bufferRead := 1, bufferSize := 1, sniffing := false, lastErr := none }

/-- A sniffer state in the middle of a replay: three buffered bytes, one
already served. -/
def wReplayState : Sniffer :=
  { source := fun i _ => if i = 0 then ⟨[10, 11], some 3⟩ else ⟨[12], none⟩,
    srcIdx := 0, buffer := [5, 6, 7], bufCap := 3,
    bufferRead := 1, bufferSize := 3, sniffing := false, lastErr := some 2 }

/-- A sniffer state that has never sniffed (all fields at their zero values),
over a one-chunk source. -/
def wFreshState : Sniffer := mkSniffer fun _ _ => ⟨[42, 43], none⟩

/-! ### Helper lemmas about the sniffer's three read regimes -/

theorem read_buffered (s : Sniffer) (p : Nat) (h : s.bufferRead < s.bufferSize) :
    s.read p =
      (((s.buffer.take s.bufferSize).drop s.bufferRead).take p, s.lastErr,
        { s with bufferRead :=
            s.bufferRead + (((s.buffer.take s.bufferSize).drop s.bufferRead).take p).length }) := by
  simp [Sniffer.read, h]

theorem read_pass (s : Sniffer) (p : Nat) (hsn : s.sniffing = false)
    (hbr : s.bufferSize ≤ s.bufferRead) (hcap : s.bufCap = 0 → s.buffer = []) :
    s.read p =
      ((s.source s.srcIdx p).data.take p, (s.source s.srcIdx p).err,
        { s with srcIdx := s.srcIdx + 1, buffer := [], bufCap := 0 }) := by
  have hlt : ¬ (s.bufferSize > s.bufferRead) := not_lt.mpr hbr
  by_cases hc : s.bufCap = 0
  · have hbuf : s.buffer = [] := hcap hc
    simp [Sniffer.read, hlt, hsn, hc, hbuf]
  · simp [Sniffer.read, hlt, hsn, hc]

theorem read_sniffing (s : Sniffer) (p : Nat) (hsn : s.sniffing = true)
    (hbr : s.bufferSize ≤ s.bufferRead) :
    s.read p =
      ((s.source s.srcIdx p).data.take p, (s.source s.srcIdx p).err,
        if 0 < ((s.source s.srcIdx p).data.take p).length then
          { s with srcIdx := s.srcIdx + 1,
                   lastErr := (s.source s.srcIdx p).err,
                   buffer := s.buffer ++ (s.source s.srcIdx p).data.take p,
                   bufCap := max s.bufCap
                     (s.buffer.length + ((s.source s.srcIdx p).data.take p).length) }
        else { s with srcIdx := s.srcIdx + 1 }) := by
  have hlt : ¬ (s.bufferSize > s.bufferRead) := not_lt.mpr hbr
  by_cases hd : 0 < ((s.source s.srcIdx p).data.take p).length
  · have hd2 := hd
    simp only [List.length_take, lt_min_iff] at hd2
    simp [Sniffer.read, hlt, hsn, hd, hd2]
  · have hd2 := hd
    simp only [List.length_take, lt_min_iff] at hd2
    simp [Sniffer.read, hlt, hsn, hd, hd2]


theorem runReads_sniffing (ps : List Nat) (s : Sniffer)
    (hsn : s.sniffing = true) (hbr : s.bufferSize ≤ s.bufferRead) :
    (runReads s ps).fst = passRun s.source s.srcIdx ps
    ∧ (runReads s ps).snd.buffer = s.buffer ++ ((runReads s ps).fst.map Prod.fst).flatten
    ∧ (runReads s ps).snd.sniffing = true
    ∧ (runReads s ps).snd.bufferRead = s.bufferRead
    ∧ (runReads s ps).snd.bufferSize = s.bufferSize
    ∧ (runReads s ps).snd.srcIdx = s.srcIdx + ps.length
    ∧ (runReads s ps).snd.source = s.source
    ∧ ((s.bufCap = 0 → s.buffer = []) →
        ((runReads s ps).snd.bufCap = 0 → (runReads s ps).snd.buffer = [])) := by
  induction ps generalizing s with
  | nil => simp [runReads, passRun, hsn]
  | cons p ps ih =>
    have hstep := read_sniffing s p hsn hbr
    by_cases hd : 0 < ((s.source s.srcIdx p).data.take p).length
    · rw [if_pos hd] at hstep
      set s2 : Sniffer :=
        { s with srcIdx := s.srcIdx + 1,
                 lastErr := (s.source s.srcIdx p).err,
                 buffer := s.buffer ++ (s.source s.srcIdx p).data.take p,
                 bufCap := max s.bufCap
                   (s.buffer.length + ((s.source s.srcIdx p).data.take p).length) } with hs2
      have hsn2 : s2.sniffing = true := hsn
      have hbr2 : s2.bufferSize ≤ s2.bufferRead := hbr
      obtain ⟨ih1, ih2, ih3, ih4, ih5, ih6, ih7, ih8⟩ := ih s2 hsn2 hbr2
      have hsrc2 : s2.source = s.source := rfl
      have hidx2 : s2.srcIdx = s.srcIdx + 1 := rfl
      have hbuf2 : s2.buffer = s.buffer ++ (s.source s.srcIdx p).data.take p := rfl
      refine ⟨?_, ?_, ?_, ?_, ?_, ?_, ?_, ?_⟩
      · simp [runReads, hstep, passRun, ih1, hsrc2, hidx2]
      · simp [runReads, hstep, ih2, hbuf2, ih1]
      · simp [runReads, hstep, ih3]
      · simp [runReads, hstep, ih4]
      · simp [runReads, hstep, ih5]
      · simp [runReads, hstep, ih6, hidx2]; omega
      · simp [runReads, hstep, ih7, hsrc2]
      · intro hcap
        simp only [runReads, hstep]
        intro h0
        refine ih8 ?_ h0
        intro hc2
        exfalso
        have hc2b : s2.bufCap = max s.bufCap
            (s.buffer.length + ((s.source s.srcIdx p).data.take p).length) := rfl
        rw [hc2b] at hc2
        omega
    · rw [if_neg hd] at hstep
      have hd0 : ((s.source s.srcIdx p).data.take p).length = 0 := by omega
      have hdata : (s.source s.srcIdx p).data.take p = [] :=
        List.eq_nil_of_length_eq_zero hd0
      set s2 : Sniffer := { s with srcIdx := s.srcIdx + 1 } with hs2
      have hsn2 : s2.sniffing = true := hsn
      have hbr2 : s2.bufferSize ≤ s2.bufferRead := hbr
      obtain ⟨ih1, ih2, ih3, ih4, ih5, ih6, ih7, ih8⟩ := ih s2 hsn2 hbr2
      have hsrc2 : s2.source = s.source := rfl
      have hidx2 : s2.srcIdx = s.srcIdx + 1 := rfl
      have hbuf2 : s2.buffer = s.buffer := rfl
      refine ⟨?_, ?_, ?_, ?_, ?_, ?_, ?_, ?_⟩
      · simp [runReads, hstep, passRun, ih1, hsrc2, hidx2]
      · simp [runReads, hstep, ih2, hbuf2, ih1, hdata]
      · simp [runReads, hstep, ih3]
      · simp [runReads, hstep, ih4]
      · simp [runReads, hstep, ih5]
      · simp [runReads, hstep, ih6, hidx2]; omega
      · simp [runReads, hstep, ih7, hsrc2]
      · intro hcap
        simp only [runReads, hstep]
        intro h0
        refine ih8 ?_ h0
        intro hc2
        have : s.bufCap = 0 := hc2
        exact hcap this


theorem runReads_pass (qs : List Nat) (s : Sniffer)
    (hsn : s.sniffing = false) (hbr : s.bufferSize ≤ s.bufferRead)
    (hcap : s.bufCap = 0 → s.buffer = []) :
    (runReads s qs).fst = passRun s.source s.srcIdx qs
    ∧ (runReads s qs).snd.srcIdx = s.srcIdx + qs.length
    ∧ (runReads s qs).snd.source = s.source := by
  induction qs generalizing s with
  | nil => simp [runReads, passRun]
  | cons p qs ih =>
    have hstep := read_pass s p hsn hbr hcap
    set s2 : Sniffer := { s with srcIdx := s.srcIdx + 1, buffer := [], bufCap := 0 } with hs2
    have hsn2 : s2.sniffing = false := hsn
    have hbr2 : s2.bufferSize ≤ s2.bufferRead := hbr
    have hcap2 : s2.bufCap = 0 → s2.buffer = [] := fun _ => rfl
    obtain ⟨ih1, ih2, ih3⟩ := ih s2 hsn2 hbr2 hcap2
    have hsrc2 : s2.source = s.source := rfl
    have hidx2 : s2.srcIdx = s.srcIdx + 1 := rfl
    refine ⟨?_, ?_, ?_⟩
    · simp [runReads, hstep, passRun, ih1, hsrc2, hidx2]
    · simp [runReads, hstep, ih2, hidx2]; omega
    · simp [runReads, hstep, ih3, hsrc2]

theorem runReads_drain (qs : List Nat) (s : Sniffer)
    (hsn : s.sniffing = false) (hrB : s.bufferRead ≤ s.bufferSize)
    (hBl : s.bufferSize = s.buffer.length)
    (hcap : s.bufCap = 0 → s.buffer = []) :
    (runReads s qs).fst
      = (replaySplit s.buffer s.bufferSize s.lastErr s.bufferRead qs).fst
        ++ passRun s.source s.srcIdx
            (qs.drop (replaySplit s.buffer s.bufferSize s.lastErr s.bufferRead qs).snd)
    ∧ (runReads s qs).snd.srcIdx
        = s.srcIdx
          + (qs.drop (replaySplit s.buffer s.bufferSize s.lastErr s.bufferRead qs).snd).length
    ∧ (runReads s qs).snd.source = s.source := by
  induction qs generalizing s with
  | nil => simp [runReads, replaySplit, passRun]
  | cons p qs ih =>
    by_cases hlt : s.bufferRead < s.bufferSize
    · have hstep := read_buffered s p hlt
      set chunk : List Byte :=
        ((s.buffer.take s.bufferSize).drop s.bufferRead).take p with hchunk
      set s2 : Sniffer := { s with bufferRead := s.bufferRead + chunk.length } with hs2
      have hlen : chunk.length = min p (s.bufferSize - s.bufferRead) := by
        rw [hchunk]
        simp [List.length_take, List.length_drop, ← hBl]
      have hsn2 : s2.sniffing = false := hsn
      have hrB2 : s2.bufferRead ≤ s2.bufferSize := by
        show s.bufferRead + chunk.length ≤ s.bufferSize
        omega
      have hBl2 : s2.bufferSize = s2.buffer.length := hBl
      have hcap2 : s2.bufCap = 0 → s2.buffer = [] := hcap
      obtain ⟨ih1, ih2, ih3⟩ := ih s2 hsn2 hrB2 hBl2 hcap2
      have hsplit :
          replaySplit s.buffer s.bufferSize s.lastErr s.bufferRead (p :: qs)
            = ((chunk, s.lastErr)
                :: (replaySplit s.buffer s.bufferSize s.lastErr
                      (s.bufferRead + chunk.length) qs).fst,
               (replaySplit s.buffer s.bufferSize s.lastErr
                  (s.bufferRead + chunk.length) qs).snd + 1) := by
        simp [replaySplit, hlt, hchunk]
      refine ⟨?_, ?_, ?_⟩
      · simp [runReads, hstep, hsplit, List.drop_succ_cons, ih1]
      · simp [runReads, hstep, hsplit, List.drop_succ_cons, ih2]
      · simp [runReads, hstep, ih3]
    · have hge : s.bufferSize ≤ s.bufferRead := not_lt.mp hlt
      have hsplit :
          replaySplit s.buffer s.bufferSize s.lastErr s.bufferRead (p :: qs) = ([], 0) := by
        simp [replaySplit, hlt]
      obtain ⟨h1, h2, h3⟩ := runReads_pass (p :: qs) s hsn hge hcap
      refine ⟨?_, ?_, ?_⟩
      · simp [hsplit, h1]
      · simp [hsplit, h2]
      · exact h3


theorem drop_min_len {α : Type} (l : List α) (p : Nat) :
    l.drop (min p l.length) = l.drop p := by
  rcases Nat.le_total p l.length with h | h
  · rw [Nat.min_eq_left h]
  · rw [Nat.min_eq_right h, List.drop_length, List.drop_eq_nil_of_le h]

theorem replaySplit_flatten (qs : List Nat) (buf : List Byte) (B : Nat)
    (e : GoError) (r : Nat) (hB : B ≤ buf.length) (hsum : B ≤ r + qs.sum) :
    ((replaySplit buf B e r qs).fst.map Prod.fst).flatten = (buf.take B).drop r := by
  have hlenB : (buf.take B).length = B := by simp [List.length_take, hB]
  induction qs generalizing r with
  | nil =>
    simp only [List.sum_nil, Nat.add_zero] at hsum
    simp [replaySplit]
    omega
  | cons p qs ih =>
    by_cases hr : r < B
    · have hchlen : (((buf.take B).drop r).take p).length = min p (B - r) := by
        simp [List.length_take, List.length_drop, hlenB]
      simp only [replaySplit, if_pos hr, List.map_cons, List.flatten_cons]
      have hsum2 : B ≤ (r + (((buf.take B).drop r).take p).length) + qs.sum := by
        simp only [List.sum_cons] at hsum
        rw [hchlen]
        omega
      rw [ih _ hsum2]
      have hdd : (buf.take B).drop (r + (((buf.take B).drop r).take p).length)
          = ((buf.take B).drop r).drop ((((buf.take B).drop r).take p).length) := by
        rw [List.drop_drop]
      rw [hdd]
      have hlen2 : (((buf.take B).drop r).take p).length
          = min p ((buf.take B).drop r).length := by
        simp [List.length_take]
      rw [hlen2, drop_min_len]
      exact List.take_append_drop p ((buf.take B).drop r)
    · simp only [replaySplit, if_neg hr]
      simp
      omega

theorem replaySplit_errors (qs : List Nat) (buf : List Byte) (B : Nat)
    (e : GoError) (r : Nat) :
    (replaySplit buf B e r qs).fst.map Prod.snd
      = List.replicate (replaySplit buf B e r qs).fst.length e := by
  induction qs generalizing r with
  | nil => simp [replaySplit]
  | cons p qs ih =>
    by_cases hr : r < B
    · simp [replaySplit, hr, ih, List.replicate_succ]
    · simp [replaySplit, hr]

theorem replaySplit_length (qs : List Nat) (buf : List Byte) (B : Nat)
    (e : GoError) (r : Nat) :
    (replaySplit buf B e r qs).fst.length = (replaySplit buf B e r qs).snd := by
  induction qs generalizing r with
  | nil => simp [replaySplit]
  | cons p qs ih =>
    by_cases hr : r < B
    · simp [replaySplit, hr, ih]
    · simp [replaySplit, hr]

theorem passRun_length (src : Source) (i : Nat) (ps : List Nat) :
    (passRun src i ps).length = ps.length := by
  induction ps generalizing i with
  | nil => simp [passRun]
  | cons p ps ih => simp [passRun, ih]

theorem passRun_sum_le (src : Source) (i : Nat) (ps : List Nat) :
    ((passRun src i ps).map (fun o => o.fst.length)).sum ≤ ps.sum := by
  induction ps generalizing i with
  | nil => simp [passRun]
  | cons p ps ih =>
    simp only [passRun, List.map_cons, List.sum_cons]
    have h1 : ((src i p).data.take p).length ≤ p := by
      simp [List.length_take]
    have h2 := ih (i + 1)
    omega


/-- C1 (amended): start sniffing on a fresh connection, run any read sequence,
stop sniffing, and run the same sequence again.  The repeated run splits into a
replay phase followed by live upstream reads; the replay phase reproduces, in
order and in full, exactly the bytes returned during sniffing (byte-for-byte as
a stream, though not necessarily with the original per-read chunking), but each
replay read carries the single last error recorded while sniffing rather than
the per-read errors observed then; every read past the sniffed total is served
by, and only by, the live upstream source, continuing exactly where sniffing
left it. -/
theorem sniffer_sniff_replay (src : Source) (ps : List Nat) :
    let s0 := (mkSniffer src).reset true
    let r1 := runReads s0 ps
    let s2 := r1.snd.reset false
    let r2 := runReads s2 ps
    let sp := replaySplit s2.buffer s2.bufferSize s2.lastErr 0 ps
    r2.fst = sp.fst ++ passRun src ps.length (ps.drop sp.snd)
    ∧ (sp.fst.map Prod.fst).flatten = (r1.fst.map Prod.fst).flatten
    ∧ sp.fst.map Prod.snd = List.replicate sp.fst.length r1.snd.lastErr
    ∧ r2.snd.srcIdx = ps.length + (ps.drop sp.snd).length := by
  intro s0 r1 s2 r2 sp
  obtain ⟨ih1, ih2, ih3, ih4, ih5, ih6, ih7, ih8⟩ :=
    runReads_sniffing ps s0 rfl (Nat.le_refl 0)
  have ih1x : r1.fst = passRun src 0 ps := ih1
  have hbuf0 : r1.snd.buffer = [] ++ (r1.fst.map Prod.fst).flatten := ih2
  have hbuf : r1.snd.buffer = (r1.fst.map Prod.fst).flatten := by simpa using hbuf0
  have hsrc : s2.source = src := ih7
  have hidx0 : s2.srcIdx = 0 + ps.length := ih6
  have hidx : s2.srcIdx = ps.length := by omega
  have hcap : s2.bufCap = 0 → s2.buffer = [] := fun h => ih8 (fun _ => rfl) h
  obtain ⟨hD1, hD2, hD3⟩ :=
    runReads_drain ps s2 rfl (Nat.zero_le _) rfl hcap
  have hD1x : r2.fst = sp.fst ++ passRun s2.source s2.srcIdx (ps.drop sp.snd) := hD1
  have hD2x : r2.snd.srcIdx = s2.srcIdx + (ps.drop sp.snd).length := hD2
  have hBl : s2.bufferSize = s2.buffer.length := rfl
  have hBsum : s2.bufferSize = (r1.fst.map Prod.fst).flatten.length := by
    have h0 : s2.bufferSize = r1.snd.buffer.length := rfl
    rw [h0, hbuf]
  have hlensum : (r1.fst.map Prod.fst).flatten.length ≤ ps.sum := by
    rw [ih1x, List.length_flatten, List.map_map]
    exact passRun_sum_le src 0 ps
  have hflat :
      (sp.fst.map Prod.fst).flatten = (s2.buffer.take s2.bufferSize).drop 0 :=
    replaySplit_flatten ps s2.buffer s2.bufferSize s2.lastErr 0
      (le_of_eq hBl) (by omega)
  have hb2 : s2.buffer = (r1.fst.map Prod.fst).flatten := hbuf
  refine ⟨?_, ?_, ?_, ?_⟩
  · rw [hD1x, hsrc, hidx]
  · rw [hflat, List.drop_zero, hBl, List.take_length, hb2]
  · exact replaySplit_errors ps s2.buffer s2.bufferSize s2.lastErr 0
  · rw [hD2x, hidx]

/-! ### Claim theorems: sniffer -/

/-- C1 (counterexample): over `cexSrc`, sniffing with reads [1, 1] observes the
errors `some 7` then `some 8`, while the repeated reads after stopping replay
the same bytes but return the error `some 8` for both reads — the claimed
error-for-error reproduction fails even though every byte is within the
sniffed total. -/
theorem sniffer_replay_error_cex :
    ((runReads ((runReads ((mkSniffer cexSrc).reset true) [1, 1]).snd.reset false)
        [1, 1]).fst.map Prod.fst
      = (runReads ((mkSniffer cexSrc).reset true) [1, 1]).fst.map Prod.fst)
    ∧ ((runReads ((runReads ((mkSniffer cexSrc).reset true) [1, 1]).snd.reset false)
        [1, 1]).fst.map Prod.snd
      ≠ (runReads ((mkSniffer cexSrc).reset true) [1, 1]).fst.map Prod.snd) := by
  decide

/-- C3 (confirmed): while `bufferRead < bufferSize` a read is served strictly
from the internal buffer — its bytes are a slice of the buffer, the upstream
source is not consulted, and the buffer is untouched; once `bufferRead` has
reached `bufferSize` with sniffing off, the read discards the internal buffer
and passes directly to the upstream source, and the resulting state satisfies
the same condition again, so every subsequent read also passes directly to the
source.  The hypothesis is the `bytes.Buffer` invariant relating zero capacity
to empty contents. -/
theorem sniffer_buffer_invariant (s : Sniffer) (p : Nat)
    (hcap : s.bufCap = 0 → s.buffer = []) :
    (s.bufferRead < s.bufferSize →
      (s.read p).fst = ((s.buffer.take s.bufferSize).drop s.bufferRead).take p
      ∧ (s.read p).snd.snd.srcIdx = s.srcIdx
      ∧ (s.read p).snd.snd.buffer = s.buffer)
    ∧ (s.bufferSize ≤ s.bufferRead → s.sniffing = false →
      (s.read p).snd.snd.buffer = []
      ∧ (s.read p).fst = (s.source s.srcIdx p).data.take p
      ∧ (s.read p).snd.fst = (s.source s.srcIdx p).err
      ∧ (s.read p).snd.snd.srcIdx = s.srcIdx + 1
      ∧ (s.read p).snd.snd.bufferSize ≤ (s.read p).snd.snd.bufferRead
      ∧ (s.read p).snd.snd.sniffing = false
      ∧ ((s.read p).snd.snd.bufCap = 0 → (s.read p).snd.snd.buffer = [])) := by
  constructor
  · intro hlt
    rw [read_buffered s p hlt]
    exact ⟨rfl, rfl, rfl⟩
  · intro hge hsn
    rw [read_pass s p hsn hge hcap]
    exact ⟨rfl, rfl, rfl, rfl, hge, hsn, fun _ => rfl⟩

/-- Witness for C3: the mid-replay state `wReplayState` exercises the buffered
branch, and `staleSniffer` (past its ceiling, not sniffing) exercises the
discard-and-pass-through branch. -/
theorem sniffer_buffer_invariant_witness :
    ((wReplayState.read 5).fst
        = ((wReplayState.buffer.take wReplayState.bufferSize).drop
            wReplayState.bufferRead).take 5
      ∧ (wReplayState.read 5).snd.snd.srcIdx = wReplayState.srcIdx
      ∧ (wReplayState.read 5).snd.snd.buffer = wReplayState.buffer)
    ∧ ((staleSniffer.read 1).snd.snd.buffer = []
      ∧ (staleSniffer.read 1).fst
          = (staleSniffer.source staleSniffer.srcIdx 1).data.take 1
      ∧ (staleSniffer.read 1).snd.fst
          = (staleSniffer.source staleSniffer.srcIdx 1).err
      ∧ (staleSniffer.read 1).snd.snd.srcIdx = staleSniffer.srcIdx + 1
      ∧ (staleSniffer.read 1).snd.snd.bufferSize
          ≤ (staleSniffer.read 1).snd.snd.bufferRead
      ∧ (staleSniffer.read 1).snd.snd.sniffing = false) := by
  refine ⟨?_, ?_⟩
  · exact (sniffer_buffer_invariant wReplayState 5 (by decide)).1 (by decide)
  · obtain ⟨h1, h2, h3, h4, h5, h6, h7⟩ :=
      (sniffer_buffer_invariant staleSniffer 1 (by decide)).2 (by decide) (by decide)
    exact ⟨h1, h2, h3, h4, h5, h6⟩

/-- C10 (confirmed): with unserved replay bytes (`bufferRead < bufferSize`), a
single read returns exactly `min plen (bufferSize - bufferRead)` bytes taken
only from the internal buffer, paired with the stored `lastErr`, and does not
consult the upstream source — even when the caller's slice is larger than the
remaining buffered data.  The second hypothesis is the reachable-state bound
that the ceiling never exceeds the buffer contents (the Go slice expression
`buffer.Bytes()[bufferRead:bufferSize]` would panic otherwise). -/
theorem sniffer_read_buffered_exact (s : Sniffer) (p : Nat)
    (h : s.bufferRead < s.bufferSize) (hB : s.bufferSize ≤ s.buffer.length) :
    (s.read p).fst = ((s.buffer.take s.bufferSize).drop s.bufferRead).take p
    ∧ (s.read p).fst.length = min p (s.bufferSize - s.bufferRead)
    ∧ (s.read p).snd.fst = s.lastErr
    ∧ (s.read p).snd.snd.srcIdx = s.srcIdx := by
  rw [read_buffered s p h]
  refine ⟨rfl, ?_, rfl, rfl⟩
  simp only [List.length_take, List.length_drop]
  omega

/-- Witness for C10: reading 5 bytes at `wReplayState` yields the 2 remaining
buffered bytes with the stored error. -/
theorem sniffer_read_buffered_exact_witness :
    wReplayState.bufferRead < wReplayState.bufferSize
    ∧ wReplayState.bufferSize ≤ wReplayState.buffer.length
    ∧ ((wReplayState.read 5).fst
        = ((wReplayState.buffer.take wReplayState.bufferSize).drop
            wReplayState.bufferRead).take 5
      ∧ (wReplayState.read 5).fst.length
          = min 5 (wReplayState.bufferSize - wReplayState.bufferRead)
      ∧ (wReplayState.read 5).snd.fst = wReplayState.lastErr
      ∧ (wReplayState.read 5).snd.snd.srcIdx = wReplayState.srcIdx) :=
  ⟨by decide, by decide,
    sniffer_read_buffered_exact wReplayState 5 (by decide) (by decide)⟩

/-- C7 (counterexample): at `staleSniffer` — whose buffer holds the already
fully replayed, not yet discarded byte 7 — a `reset(true)`, two reads (the
first re-replays the stale byte 7, the second pulls 8 from the source), and a
`reset(false)` leave a replay window of `[7, 8]`, while the bytes accumulated
into the buffer since the `reset(true)` are only `[8]`: the window is not
"exactly the bytes accumulated since the matching reset(true)". -/
theorem sniffer_reset_accumulated_cex :
    ((((runReads (staleSniffer.reset true) [1, 1]).snd.reset false).buffer.take
        ((runReads (staleSniffer.reset true) [1, 1]).snd.reset false).bufferSize).drop
        ((runReads (staleSniffer.reset true) [1, 1]).snd.reset false).bufferRead
      = [7, 8])
    ∧ ((runReads (staleSniffer.reset true) [1, 1]).snd.buffer.drop
        staleSniffer.buffer.length = [8])
    ∧ ([7, 8] ≠ ([8] : List Byte)) := by
  decide

/-- C7 (amended): `reset(flag)` sets the sniffing flag to the given value,
zeroes the replay cursor, and sets the replay ceiling to the buffer's current
length (no truncation ever happens in `reset`).  Consequently, when the buffer
is empty at the matching `reset(true)` — as on a freshly wrapped connection —
a later `reset(false)` makes exactly the bytes accumulated since that
`reset(true)` (the bytes returned to the sniffing reader) available for
replay; with a non-empty buffer the window also re-exposes the stale bytes
accumulated before. -/
theorem sniffer_reset_spec (s : Sniffer) (b : Bool) (ps : List Nat) :
    (s.reset b).sniffing = b
    ∧ (s.reset b).bufferRead = 0
    ∧ (s.reset b).bufferSize = s.buffer.length
    ∧ (s.buffer = [] →
        ((((runReads (s.reset true) ps).snd.reset false).buffer.take
            ((runReads (s.reset true) ps).snd.reset false).bufferSize).drop
            ((runReads (s.reset true) ps).snd.reset false).bufferRead
          = ((runReads (s.reset true) ps).fst.map Prod.fst).flatten)) := by
  refine ⟨rfl, rfl, rfl, ?_⟩
  intro hb
  have hsn1 : (s.reset true).sniffing = true := rfl
  have hbr1 : (s.reset true).bufferSize ≤ (s.reset true).bufferRead := by
    have h1 : (s.reset true).bufferSize = s.buffer.length := rfl
    have h2 : (s.reset true).bufferRead = 0 := rfl
    rw [h1, h2, hb]
    exact Nat.le_refl 0
  obtain ⟨ih1, ih2, ih3, ih4, ih5, ih6, ih7, ih8⟩ :=
    runReads_sniffing ps (s.reset true) hsn1 hbr1
  have hwin :
      (((runReads (s.reset true) ps).snd.reset false).buffer.take
          ((runReads (s.reset true) ps).snd.reset false).bufferSize).drop
          ((runReads (s.reset true) ps).snd.reset false).bufferRead
        = (runReads (s.reset true) ps).snd.buffer.take
            (runReads (s.reset true) ps).snd.buffer.length := by
      have hdrop :
          ((runReads (s.reset true) ps).snd.reset false).bufferRead = 0 := rfl
      rw [hdrop, List.drop_zero]
      rfl
  rw [hwin, List.take_length, ih2]
  have hbuf1 : (s.reset true).buffer = [] := hb
  rw [hbuf1]
  simp

/-- Witness for C7 at `wFreshState` with two sniffing reads of 1 byte each:
the replay window after stopping is exactly the flattened sniffed bytes. -/
theorem sniffer_reset_spec_witness :
    (wFreshState.reset true).sniffing = true
    ∧ (wFreshState.reset true).bufferRead = 0
    ∧ (wFreshState.reset true).bufferSize = wFreshState.buffer.length
    ∧ ((((runReads (wFreshState.reset true) [1, 1]).snd.reset false).buffer.take
          ((runReads (wFreshState.reset true) [1, 1]).snd.reset false).bufferSize).drop
          ((runReads (wFreshState.reset true) [1, 1]).snd.reset false).bufferRead
        = ((runReads (wFreshState.reset true) [1, 1]).fst.map Prod.fst).flatten) := by
  obtain ⟨h1, h2, h3, h4⟩ := sniffer_reset_spec wFreshState true [1, 1]
  exact ⟨h1, h2, h3, h4 (by decide)⟩

/-- C8 (counterexample): at `staleSniffer2` — again a fully replayed but not
yet discarded buffer — the pair `reset(true); reset(false)` with zero reads in
between is not an identity on observable read behavior: the next read then
re-replays the stale byte 7, whereas without the pair it would have pulled 5
from the live source. -/
theorem sniffer_reset_pair_cex :
    ((((staleSniffer2.reset true).reset false).read 1).fst = [7])
    ∧ ((staleSniffer2.read 1).fst = [5])
    ∧ ((((staleSniffer2.reset true).reset false).read 1).fst
        ≠ (staleSniffer2.read 1).fst) := by
  decide

/-- C8 (amended): from any state whose buffer is empty with cursor and ceiling
zero and sniffing off — the state of a sniffer that has never sniffed, or has
been discarded — the pair `reset(true); reset(false)` with zero reads in
between returns the state unchanged, hence every subsequent read behaves
exactly as if sniffing had never been started; and, in any state, a read
performed with sniffing off, no unserved replay bytes, and a zero-capacity
buffer leaves the buffer untouched (no reallocation) with capacity still
zero. -/
theorem sniffer_reset_pair_noop (s : Sniffer) (p : Nat)
    (hbuf : s.buffer = []) (hr : s.bufferRead = 0) (hB : s.bufferSize = 0)
    (hsn : s.sniffing = false) :
    ((s.reset true).reset false) = s
    ∧ (∀ t : Sniffer, t.sniffing = false → t.bufferSize ≤ t.bufferRead →
        t.bufCap = 0 →
        (t.read p).snd.snd.buffer = t.buffer
        ∧ (t.read p).snd.snd.bufCap = 0) := by
  constructor
  · cases s with
    | mk source srcIdx buffer bufCap bufferRead bufferSize sniffing lastErr =>
      simp only [Sniffer.reset]
      simp_all
  · intro t htsn htbr htcap
    have hlt : ¬ (t.bufferSize > t.bufferRead) := not_lt.mpr htbr
    constructor
    · simp [Sniffer.read, hlt, htsn, htcap]
    · simp [Sniffer.read, hlt, htsn, htcap]

/-- Witness for C8 at the never-sniffed state `wFreshState` (and, for the
zero-capacity clause, at `wFreshState` itself as `t`). -/
theorem sniffer_reset_pair_noop_witness :
    (wFreshState.buffer = [] ∧ wFreshState.bufferRead = 0
      ∧ wFreshState.bufferSize = 0 ∧ wFreshState.sniffing = false)
    ∧ ((wFreshState.reset true).reset false) = wFreshState
    ∧ ((wFreshState.read 3).snd.snd.buffer = wFreshState.buffer
        ∧ (wFreshState.read 3).snd.snd.bufCap = 0) := by
  have h := sniffer_reset_pair_noop wFreshState 3 rfl rfl rfl rfl
  exact ⟨⟨rfl, rfl, rfl, rfl⟩, h.1, h.2 wFreshState rfl (Nat.le_refl 0) rfl⟩

/-! ### Claim theorems: accept loop, facade, lifecycle -/

/-- C2 (confirmed): inside the accept loop, an error lets the loop continue to
the next iteration exactly when `handleErr` approves, and `handleErr` approves
exactly when the policy returns continue AND the error implements `net.Error`
AND it is classified temporary; in every other case `Serve` returns that exact
error to its caller. -/
theorem serve_accept_error_policy (policy : LErr → Bool) (e : LErr)
    (rest : List AcceptResult) :
    (handleErr policy e = true
      ↔ policy e = true ∧ e.isNetError = true ∧ e.temp = true)
    ∧ (handleErr policy e = true →
        serveLoop policy (.acceptErr e :: rest) = serveLoop policy rest)
    ∧ (handleErr policy e = false →
        serveLoop policy (.acceptErr e :: rest) = (some e, [])) := by
  refine ⟨?_, ?_, ?_⟩
  · cases hp : policy e <;> cases hn : e.isNetError <;> cases ht : e.temp <;>
      simp [handleErr, hp, hn, ht]
  · intro h
    simp [serveLoop, h]
  · intro h
    simp [serveLoop, h]

/-- Witness for C2: a non-temporary transport error under the always-continue
policy still makes the loop return that exact error. -/
theorem serve_accept_error_policy_witness :
    handleErr (fun _ => true) (LErr.netErr 3 false) = false
    ∧ serveLoop (fun _ => true) [AcceptResult.acceptErr (LErr.netErr 3 false)]
        = (some (LErr.netErr 3 false), []) :=
  ⟨by decide,
    (serve_accept_error_policy (fun _ => true) (LErr.netErr 3 false) []).2.2
      (by decide)⟩

/-- C5 (confirmed, with `ErrNotMatched` modelled from the spec): the
per-connection task closes its connection, reports `ErrNotMatched{c}` to the
error policy, and closes the owning bound listener exactly when the policy
rejects continuation for that error. -/
theorem serve_conn_effects (policy : LErr → Bool) (c : Nat) :
    (serveConn policy c).closedConn = true
    ∧ (serveConn policy c).reported = LErr.notMatched c
    ∧ ((serveConn policy c).closedRoot = true
        ↔ policy (LErr.notMatched c) = false) := by
  refine ⟨rfl, rfl, ?_⟩
  cases hp : policy (LErr.notMatched c) <;>
    simp [serveConn, handleErr, LErr.isNetError, LErr.temp,
      errNotMatchedIsNetError, errNotMatchedTemp, hp]

/-- No operation the repository performs on a `connections` channel ever puts
a value into it (there is no send anywhere in the code), so the queue is empty
in every reachable state. -/
theorem runChanOps_queue (ops : List ChanOp) : (runChanOps ops).queue = [] := by
  have hstep : ∀ ch : ConnChan, ch.queue = [] →
      ∀ op, (ch.stepOp op).queue = [] := by
    intro ch hch op
    cases op with
    | closeCh => simpa [ConnChan.stepOp] using hch
    | recv =>
      cases hc : ch.closed <;>
        simp [ConnChan.stepOp, ConnChan.recvCh, hch, hc]
  have hfold : ∀ (l : List ChanOp) (ch : ConnChan), ch.queue = [] →
      (l.foldl ConnChan.stepOp ch).queue = [] := by
    intro l
    induction l with
    | nil => intro ch hch; simpa using hch
    | cons op l ih =>
      intro ch hch
      exact ih (ch.stepOp op) (hstep ch hch op)
  exact hfold ops newConnChan rfl

/-- C4 (confirmed): in every reachable channel state in which the facade's
queue has been closed, `muxListener.Accept` returns no connection and the
sentinel `ErrListenerClosed`, leaving the channel state unchanged — so every
pending and every future accept call returns the sentinel as well — and the
sentinel reports itself as neither temporary nor a timeout. -/
theorem mux_accept_after_close (ops : List ChanOp)
    (h : (runChanOps ops).closed = true) :
    muxAccept (runChanOps ops)
      = some ((none, some ErrListenerClosed), runChanOps ops)
    ∧ ErrListenerClosed.Temporary = false
    ∧ ErrListenerClosed.Timeout = false := by
  have hq := runChanOps_queue ops
  refine ⟨?_, rfl, rfl⟩
  simp [muxAccept, ConnChan.recvCh, hq, h]

/-- Witness for C4: close the queue, then accept. -/
theorem mux_accept_after_close_witness :
    (runChanOps [ChanOp.closeCh]).closed = true
    ∧ (muxAccept (runChanOps [ChanOp.closeCh])
        = some ((none, some ErrListenerClosed), runChanOps [ChanOp.closeCh])
      ∧ ErrListenerClosed.Temporary = false
      ∧ ErrListenerClosed.Timeout = false) :=
  ⟨by decide, mux_accept_after_close [ChanOp.closeCh] (by decide)⟩

/-- C6 (counterexample): create a facade with `ServeAsync`, then run `Serve`'s
shutdown path and `Close` — the owning listener has closed (both the `closing`
channel and the bound root listener), yet the facade's connection queue is
still open, refuting the claim that it is closed when the owner closes. -/
theorem facade_close_on_owner_close_cex :
    (MuxState.run [MuxOp.serveAsync, MuxOp.serveShutdown,
        MuxOp.closeListener]).closingClosed = true
    ∧ (MuxState.run [MuxOp.serveAsync, MuxOp.serveShutdown,
        MuxOp.closeListener]).rootClosed = true
    ∧ (MuxState.run [MuxOp.serveAsync, MuxOp.serveShutdown,
        MuxOp.closeListener]).facades = [{ qclosed := false }] := by
  decide

/-- C6 (amended): no facade's connection queue is ever closed — not by
`ServeAsync`, not by `Serve`'s shutdown path (which closes only the `closing`
channel), not by `Close` (which closes only the bound root listener), and not
on its own: after any sequence of listener lifecycle steps every facade
created so far still has an open queue. -/
theorem facade_never_closed (ops : List MuxOp) :
    ((MuxState.run ops).facades.all fun f => !f.qclosed) = true := by
  have hstep : ∀ st : MuxState, (st.facades.all fun f => !f.qclosed) = true →
      ∀ op, ((st.step op).facades.all fun f => !f.qclosed) = true := by
    intro st hst op
    cases op with
    | serveAsync => simp [MuxState.step, List.all_append, hst]
    | serveShutdown => simpa [MuxState.step] using hst
    | closeListener => simpa [MuxState.step] using hst
  have hfold : ∀ (l : List MuxOp) (st : MuxState),
      (st.facades.all fun f => !f.qclosed) = true →
      ((l.foldl MuxState.step st).facades.all fun f => !f.qclosed) = true := by
    intro l
    induction l with
    | nil => intro st hst; simpa using hst
    | cons op l ih =>
      intro st hst
      exact ih (st.step op) (hstep st hst op)
  exact hfold ops newMuxState rfl

/-- C9 (confirmed): `Listener.Accept` is literally `m.root.Accept()` — the
value it returns is the raw connection delivered by the bound root listener,
unwrapped (no `Conn` is built around it: the embedding of `Accept`, like the
code, never calls `newConn`, `startSniffing`, or `doneSniffing`); and the
accept loop of `Serve` likewise hands each accepted raw connection unchanged
to its per-connection task. -/
theorem accept_passthrough (root : RootListener) :
    listenerAccept root = root.acceptRoot
    ∧ (∀ c rest, root.pending = c :: rest →
        (listenerAccept root).fst = some c
        ∧ (listenerAccept root).snd = ⟨rest⟩)
    ∧ (∀ (policy : LErr → Bool) (c : Nat) (script : List AcceptResult),
        (serveLoop policy (.conn c :: script)).snd
            = c :: (serveLoop policy script).snd
        ∧ (serveLoop policy (.conn c :: script)).fst
            = (serveLoop policy script).fst) := by
  refine ⟨rfl, ?_, ?_⟩
  · intro c rest h
    cases root with
    | mk pending =>
      cases pending with
      | nil => simp at h
      | cons a l =>
        obtain ⟨rfl, rfl⟩ := by simpa using h
        exact ⟨rfl, rfl⟩
  · intro policy c script
    constructor <;> simp [serveLoop]

/-- Witness for C9: accepting from a root listener with two pending raw
connections returns the first one unwrapped. -/
theorem accept_passthrough_witness :
    (listenerAccept ⟨[4, 5]⟩).fst = some 4
    ∧ (listenerAccept ⟨[4, 5]⟩).snd = (⟨[5]⟩ : RootListener) :=
  (accept_passthrough ⟨[4, 5]⟩).2.1 4 [5] rfl

end Network
